import Mathlib

/-!
Verification of the receiptly `python-ocr` service against its specification.

This file gives a shallow embedding of the pure, algorithmic parts of the
service (`app/routers/ocr.py`, `app/services/tesseract_ocr.py`,
`app/services/store_name_extractor.py`, `app/services/receipt_detector.py`,
`app/services/image_preprocessor.py`) and proves or refutes the spec claims
about them.

Modelling conventions:
- Python strings are modelled as `List Char` (named `PyStr`).  The character
  class predicates `str.isalpha` / `str.isalnum` / `str.isspace` /
  `str.isdigit` / `str.isupper` are modelled by `Char.isAlpha` /
  `Char.isAlphanum` / `Char.isWhitespace` / `Char.isDigit` / `Char.isUpper`,
  which agree with Python on ASCII text (the receipts handled by the code).
- Python floats are modelled as exact rationals (`ℚ`).  Where the source
  compares a quotient of integer counts against a decimal constant
  (`letter_count / total < 0.3` and similar), the embedding compares the
  cross-multiplied integers (`10 * letter_count < 3 * total`), which is
  exactly equivalent whenever the denominator is positive, as guaranteed by
  the guards preceding each such comparison in the source.
- Python dictionaries holding a fixed set of keys are modelled as structures;
  a key that may be absent becomes an `Option` field.
- Calls into external engines (pytesseract, Azure, OpenCV image analysis) are
  not algorithmic code of this repository; each such call site is modelled by
  an explicit input parameter carrying the value the engine returned (or
  `none` when it raised), so every code path of the embedded functions is
  the translation of a source path.
-/

/-- Python `str`, modelled as a list of characters. -/
abbrev PyStr := List Char

/-- Python `str.strip()` with no arguments: remove leading and trailing
whitespace. -/
def pyStrip (t : PyStr) : PyStr :=
  ((t.dropWhile Char.isWhitespace).reverse.dropWhile Char.isWhitespace).reverse

/-- Helper for `pySplit`: accumulates the current word (reversed). -/
def pySplitAux : List Char → List Char → List PyStr
  | [], acc => if acc.isEmpty then [] else [acc.reverse]
  | c :: rest, acc =>
    if c.isWhitespace then
      if acc.isEmpty then pySplitAux rest [] else acc.reverse :: pySplitAux rest []
    else pySplitAux rest (c :: acc)

/-- Python `str.split()` with no arguments: split on runs of whitespace,
discarding empty pieces. -/
def pySplit (t : PyStr) : List PyStr := pySplitAux t []

/-- Python `needle in hay` substring test. -/
def containsSub (needle : PyStr) : PyStr → Bool
  | [] => needle.isEmpty
  | c :: rest => needle.isPrefixOf (c :: rest) || containsSub needle rest

/-- Python `str.split('\n')`. -/
def splitOnNewline : PyStr → List PyStr
  | [] => [[]]
  | c :: rest =>
    if c = '\n' then [] :: splitOnNewline rest
    else
      match splitOnNewline rest with
      | [] => [[c]]
      | h :: t => (c :: h) :: t

/-- Truthiness of an optional Python string (`if x:`): present and
non-empty. -/
def strTruthy (o : Option PyStr) : Bool :=
  match o with
  | none => false
  | some s => !s.isEmpty

/-! ## routers/ocr.py : is_valid_text (lines 296-326)

The text-validity gate used by `override_merchant_data_with_tesseract`.
Source comparisons `letter_ratio < 0.3` and `special_ratio > 0.4` (ratios of
counts over `total = len(text)`) are embedded as the exactly equivalent
integer comparisons `10 * letter_count < 3 * total` and
`10 * special_count > 4 * total`; `total > 0` holds on that path because the
empty string is rejected first. -/

/-- Count of alphabetic characters (`sum(c.isalpha() for c in text)`). -/
def letterCount (t : PyStr) : ℕ := (t.filter Char.isAlpha).length

/-- Count of special characters
(`sum(not c.isalnum() and not c.isspace() for c in text)`). -/
def specialCount (t : PyStr) : ℕ :=
  (t.filter (fun c => !c.isAlphanum && !c.isWhitespace)).length

/-- `is_valid_text(text, max_length)` from routers/ocr.py lines 296-326.
The `isinstance(text, str)` check is vacuous in the typed model. -/
def is_valid_text (text : PyStr) (max_length : ℕ) : Bool :=
  if text.isEmpty then false
  else if max_length < text.length then false
  else if text.length = 0 then false
  else if 10 * letterCount text < 3 * text.length
          || 10 * specialCount text > 4 * text.length then false
  else
    let words := pySplit text
    let valid_words := words.filter (fun w => 3 ≤ w.length && w.any Char.isAlpha)
    if valid_words.isEmpty then false
    else true

/-! ## Data model for the Azure result and the Tesseract location -/

/-- One merchant field dictionary inside Azure's `fields` mapping, as written
by routers/ocr.py (keys `type`, `value`, `content`, `confidence`, `source`,
`requires_manual_review`).  A raw Azure field carries `source := none` (Azure
dictionaries have no `source` key) and `requires_manual_review := false`
(absent key). -/
structure MerchantField where
  ftype : String
  value : PyStr
  content : PyStr
  confidence : ℚ
  source : Option String
  requires_manual_review : Bool

/-- The merchant-identifying entries of `azure_result['fields']`.  Other
entries (totals, items) are passed through untouched by the reconciler and
are omitted. -/
structure AzureFields where
  merchantName : Option MerchantField
  merchantAddress : Option MerchantField
  merchantPhone : Option MerchantField

/-- The `location` dictionary produced by
`TesseractOCRService._extract_location_info` (tesseract_ocr.py lines
289-297); `full_location_text` is omitted (never read by the reconciler). -/
structure Location where
  store_name : Option PyStr
  address : Option PyStr
  phone : Option PyStr
  postal_code : Option PyStr
  country : Option PyStr
  confidence : ℚ

/-- The dictionary returned by
`TesseractOCRService.extract_location_from_bytes`: `success` plus the
optional `location` payload (`raw_text`, `strategy_used`, and the `error`
message are omitted — not read by the reconciler's control flow). -/
structure TessLocationResult where
  success : Bool
  location : Option Location

/-- The dictionary returned by `StoreNameExtractor.extract_from_full_image`'s
tactics (store_name, confidence, method, line_index). -/
structure FallbackResult where
  store_name : PyStr
  confidence : ℚ
  method : String
  line_index : ℕ

/-! ## routers/ocr.py : override_merchant_data_with_tesseract (lines 265-436)

The fallback call `StoreNameExtractor().extract_from_full_image(image_bytes)`
runs OCR on the image; the value it would return is passed in as the
parameter `fb` (`none` models both a `None` return and a raised exception,
which the source swallows).  `hasImage` models the truthiness of
`image_bytes`.  The `metadata` block written at lines 425-434 records
diagnostics only and is omitted from the model. -/

/-- `fields.get('MerchantName', {})` followed by `.get('value', '')`. -/
def merchant_value (f : Option MerchantField) : PyStr :=
  match f with
  | some m => m.value
  | none => []

/-- The test `not azure_value or len(azure_value.strip()) < 2` from lines
353 and 383. -/
def merchant_is_short (f : Option MerchantField) : Bool :=
  (merchant_value f).isEmpty || (pyStrip (merchant_value f)).length < 2

/-- The field dictionary written at lines 334-340 and 399-405 (`source:
'tesseract'`). -/
def tesseract_string_field (v : PyStr) (conf : ℚ) : MerchantField :=
  ⟨"string", v, v, conf, some "tesseract", false⟩

/-- The phone field dictionary written at lines 416-422. -/
def tesseract_phone_field (v : PyStr) (conf : ℚ) : MerchantField :=
  ⟨"phoneNumber", v, v, conf, some "tesseract", false⟩

/-- The field dictionary written at lines 364-370 for a fallback hit. -/
def fallback_merchant_field (fr : FallbackResult) : MerchantField :=
  ⟨"string", fr.store_name, fr.store_name, fr.confidence,
    some ("fallback_" ++ fr.method), false⟩

/-- The placeholder dictionary written at lines 384-391. -/
def placeholder_field : MerchantField :=
  ⟨"string", "Unknown Store".toList, "Unknown Store".toList, 0,
    some "placeholder", true⟩

/-- Lines 331-345: the Tesseract store-name candidate, if it is truthy and
passes `is_valid_text(store_name, max_length=100)`. -/
def name_candidate (loc : Location) : Option MerchantField :=
  match loc.store_name with
  | some sn =>
    if !sn.isEmpty && is_valid_text sn 100 then
      some (tesseract_string_field sn loc.confidence)
    else none
  | none => none

/-- Lines 347-376: the fallback candidate.  Runs only when no Tesseract name
was set, `image_bytes` is truthy, and Azure's current merchant value is
missing or shorter than 2 characters after stripping; accepted only when the
extractor returned a dictionary with a truthy `store_name`. -/
def fallback_candidate (set1 : Bool) (hasImage : Bool)
    (fields1 : AzureFields) (fb : Option FallbackResult) : Option MerchantField :=
  if !set1 && hasImage && merchant_is_short fields1.merchantName then
    match fb with
    | some fr => if !fr.store_name.isEmpty then some (fallback_merchant_field fr) else none
    | none => none
  else none

/-- Lines 328-392: the merchant-name block of the reconciler (candidate
write, fallback, placeholder). -/
def apply_name_stage (azure : AzureFields) (loc : Location) (hasImage : Bool)
    (fb : Option FallbackResult) : AzureFields :=
  let nc := name_candidate loc
  let fields1 : AzureFields :=
    match nc with
    | some f => { azure with merchantName := some f }
    | none => azure
  let fc := fallback_candidate nc.isSome hasImage fields1 fb
  let fields2 : AzureFields :=
    match fc with
    | some f => { fields1 with merchantName := some f }
    | none => fields1
  let set2 := nc.isSome || fc.isSome
  if !set2 && merchant_is_short fields2.merchantName then
    { fields2 with merchantName := some placeholder_field }
  else fields2

/-- Lines 395-409: the merchant-address block (`is_valid_text(address,
max_length=300)`). -/
def apply_address_stage (fs : AzureFields) (loc : Location) : AzureFields :=
  match loc.address with
  | some ad =>
    if !ad.isEmpty && is_valid_text ad 300 then
      { fs with merchantAddress := some (tesseract_string_field ad loc.confidence) }
    else fs
  | none => fs

/-- Lines 411-423: the phone block.  The source strips `+`, `-` and spaces
and requires at least 7 remaining characters. -/
def apply_phone_stage (fs : AzureFields) (loc : Location) : AzureFields :=
  match loc.phone with
  | some ph =>
    if !ph.isEmpty
        && 7 ≤ (ph.filter (fun c => !(c == '+') && !(c == '-') && !(c == ' '))).length then
      { fs with merchantPhone := some (tesseract_phone_field ph loc.confidence) }
    else fs
  | none => fs

/-- `override_merchant_data_with_tesseract` (routers/ocr.py lines 265-436).
The guard at lines 284-285 returns the Azure result unchanged unless the
Tesseract result has `success` truthy and a truthy `location` payload. -/
def override_merchant_data_with_tesseract (azure : AzureFields)
    (tess : TessLocationResult) (hasImage : Bool)
    (fb : Option FallbackResult) : AzureFields :=
  match tess.success, tess.location with
  | true, some loc =>
    apply_phone_stage (apply_address_stage (apply_name_stage azure loc hasImage fb) loc) loc
  | _, _ => azure

/-! ## routers/ocr.py : validate_receipt_confidence (lines 219-262)

The input is modelled by the two values the function reads from the Azure
result: `confidence` (`.get('confidence', 0.0)`, a float, modelled as `ℚ`)
and `doc_type` (`.get('doc_type', 'unknown')`).  The three f-string messages
are modelled by an inductive type carrying the interpolated data; the three
constructors correspond one-to-one to the three message branches at lines
250-255. -/

/-- The three messages of `validate_receipt_confidence`. -/
inductive ValidationMessage where
  | notReceipt (doc_type : PyStr)
  | lowConfidence (confidence : ℚ)
  | validReceipt (confidence : ℚ)

/-- The dictionary returned by `validate_receipt_confidence`. -/
structure ValidationResult where
  is_valid_receipt : Bool
  confidence : ℚ
  message : ValidationMessage
  doc_type : PyStr

/-- `'receipt' in doc_type.lower()`. -/
def is_receipt_doc_type (doc_type : PyStr) : Bool :=
  containsSub "receipt".toList (doc_type.map Char.toLower)

/-- `validate_receipt_confidence` (routers/ocr.py lines 219-262);
`MIN_CONFIDENCE = 0.7`. -/
def validate_receipt_confidence (confidence : ℚ) (doc_type : PyStr) : ValidationResult :=
  let is_receipt_type := is_receipt_doc_type doc_type
  let is_confident : Bool := decide ((7 : ℚ)/10 ≤ confidence)
  let is_valid := is_receipt_type && is_confident
  let message :=
    if !is_receipt_type then ValidationMessage.notReceipt doc_type
    else if !is_confident then ValidationMessage.lowConfidence confidence
    else ValidationMessage.validReceipt confidence
  ⟨is_valid, confidence, message, doc_type⟩

/-! ## services/tesseract_ocr.py : location confidence and strategy selection

`_calculate_location_confidence` (lines 599-626) adds the float weights
0.25 / 0.30 / 0.20 / 0.15 / 0.10 for each populated field and applies
`round(score, 2)`.  Every reachable score is a multiple of 0.05, so after
`round(·, 2)` the result is exactly the corresponding number of hundredths;
the embedding therefore counts hundredths in `ℕ` and divides by 100 in `ℚ`
at the end, which is the exact value the source computes. -/

/-- The hundredths contributed by the populated fields (25/30/20/15/10 for
store name / address / phone / postal code / country). -/
def location_confidence_points (sn ad ph pc co : Option PyStr) : ℕ :=
  (if strTruthy sn then 25 else 0) +
  (if strTruthy ad then 30 else 0) +
  (if strTruthy ph then 20 else 0) +
  (if strTruthy pc then 15 else 0) +
  (if strTruthy co then 10 else 0)

/-- `_calculate_location_confidence` (tesseract_ocr.py lines 599-626). -/
def calculate_location_confidence (sn ad ph pc co : Option PyStr) : ℚ :=
  (location_confidence_points sn ad ph pc co : ℚ) / 100

/-- The five field values one preprocessing strategy's OCR text parses into
(`_extract_store_name`, `_extract_address`, `_extract_phone`,
`_extract_postal_code`, `_detect_country`).  Those parsers consume the raw
pytesseract output, which is external input; one `RawExtraction` is the
record of what they returned for one strategy. -/
structure RawExtraction where
  store_name : Option PyStr
  address : Option PyStr
  phone : Option PyStr
  postal_code : Option PyStr
  country : Option PyStr

/-- `_extract_location_info` (lines 264-297) assembled as a `Location`: the
five fields plus the computed confidence. -/
def location_info (r : RawExtraction) : Location :=
  ⟨r.store_name, r.address, r.phone, r.postal_code, r.country,
    calculate_location_confidence r.store_name r.address r.phone r.postal_code r.country⟩

/-- The strategy score from lines 98-102 (`confidence`, plus a 0.2 bonus when
a store name was found), in hundredths. -/
def strategy_score_points (r : RawExtraction) : ℕ :=
  location_confidence_points r.store_name r.address r.phone r.postal_code r.country +
  (if strTruthy r.store_name then 20 else 0)

/-- One step of the best-strategy loop (lines 108-116): keep the new result
exactly when its score strictly exceeds the best score so far (which starts
at 0).  A strategy that raised is `none` and is skipped (lines 118-121). -/
def best_strategy_step (acc : Option RawExtraction × ℕ) (entry : Option RawExtraction) :
    Option RawExtraction × ℕ :=
  match entry with
  | none => acc
  | some r => if acc.2 < strategy_score_points r then (some r, strategy_score_points r) else acc

/-- `extract_location_from_bytes` (tesseract_ocr.py lines 41-137), modelled
from the preprocessing strategies' parse results onward: the input list has
one entry per strategy (`enhanced`, `simple`, `high_contrast`), `none` when
that strategy raised.  Returns the best strictly-positively-scoring result,
or a failure dictionary (`success: False, location: None`) when none
scored. -/
def extract_location_from_bytes (strategies : List (Option RawExtraction)) :
    TessLocationResult :=
  match (strategies.foldl best_strategy_step (none, 0)).1 with
  | some r => ⟨true, some (location_info r)⟩
  | none => ⟨false, none⟩

/-! ## services/receipt_detector.py : detection validation and cropping

`_validate_detection` (lines 272-309) takes the float `area_ratio` (modelled
as `ℚ`) and the integer box dimensions.  The aspect test
`max(width, height) / min(width, height) > 15` is embedded cross-multiplied
(`15 * min < max`), exact because the preceding check guarantees
`min ≥ 100 > 0` on that path.  `min_area_ratio = 0.05`,
`max_area_ratio = 0.98`, and the carve-out threshold is `0.95`. -/

/-- `_validate_detection` (receipt_detector.py lines 272-309). -/
def validate_detection (area_share : ℚ) (width height : ℕ) : Bool :=
  if area_share < 1/20 then false
  else if area_share > 49/50 then
    if area_share ≥ 19/20 then true else false
  else if width < 100 || height < 100 then false
  else if 15 * min width height < max width height then false
  else true

/-- A detected bounding rectangle (`cv2.boundingRect` output). -/
structure CropRect where
  x : ℕ
  y : ℕ
  w : ℕ
  h : ℕ

/-- Outcome of `detect_and_crop`: the original bytes, or a crop to the given
padded rectangle. -/
inductive CropOutcome where
  | original
  | cropped (rect : CropRect) (padding : ℕ)

/-- The adaptive padding choice of lines 58-78.  The source compares
`dist_from_center = sqrt(dsq)` against 0.1 and 0.3; the embedding compares
the squared distance `dsq` against 0.01 and 0.09, equivalent because both
sides are nonnegative and squaring is monotone. -/
def adaptive_padding (dsq area_share : ℚ) : ℕ :=
  if dsq < 1/100 ∧ 3/10 ≤ area_share ∧ area_share ≤ 9/10 then 5
  else if dsq < 9/100 ∧ 1/5 ≤ area_share ∧ area_share ≤ 19/20 then 10
  else 20

/-- `detect_and_crop` (receipt_detector.py lines 19-96), modelled from the
detected contour's bounding rectangle onward: `detection` carries the result
of `_detect_receipt_contour` followed by `cv2.boundingRect` (`none` when no
contour was found, in which case the original bytes are returned).  On
validation failure the original bytes are returned (lines 54-56); exceptions
also return the original bytes.  `imgW`/`imgH` are `original_shape[1]` and
`original_shape[0]`. -/
def detect_and_crop (imgW imgH : ℕ) (detection : Option CropRect) : CropOutcome :=
  match detection with
  | none => .original
  | some r =>
    let area_share : ℚ := ((r.w * r.h : ℕ) : ℚ) / ((imgH * imgW : ℕ) : ℚ)
    if validate_detection area_share r.w r.h = false then .original
    else
      let cx : ℚ := (r.x : ℚ) + (r.w : ℚ)/2
      let cy : ℚ := (r.y : ℚ) + (r.h : ℚ)/2
      let dsq : ℚ := ((cx - (imgW : ℚ)/2)/(imgW : ℚ))^2 + ((cy - (imgH : ℚ)/2)/(imgH : ℚ))^2
      let padding := adaptive_padding dsq area_share
      let x := r.x - padding
      let y := r.y - padding
      let w := min (imgW - x) (r.w + 2*padding)
      let h := min (imgH - y) (r.h + 2*padding)
      .cropped ⟨x, y, w, h⟩ padding

/-! ## services/image_preprocessor.py : size-bounded JPEG re-encoding

`_image_to_bytes` (lines 258-297) re-saves the processed image at qualities
95, 90, …, 60 until the output fits `max_size_bytes`; if even quality 60 is
too large, the loop exits and the quality-60 bytes are returned.  The JPEG
codec is external: the parameter `encode` maps a quality setting to the bytes
PIL would produce (bytes are modelled as `List ℕ`). -/

/-- One pass of the quality-stepping loop over the given quality list:
the first encoding not exceeding the ceiling, if any. -/
def try_qualities (encode : ℕ → List ℕ) (max_size_bytes : ℕ) : List ℕ → Option (List ℕ)
  | [] => none
  | q :: qs =>
    let out := encode q
    if out.length ≤ max_size_bytes then some out
    else try_qualities encode max_size_bytes qs

/-- The quality settings the loop visits (`quality = 95`, decrement 5,
condition `quality >= 60`). -/
def quality_ladder : List ℕ := [95, 90, 85, 80, 75, 70, 65, 60]

/-- `_image_to_bytes` (image_preprocessor.py lines 258-297): the first
encoding within the ceiling, else the last one produced (quality 60). -/
def image_to_bytes (encode : ℕ → List ℕ) (max_size_bytes : ℕ) : List ℕ :=
  match try_qualities encode max_size_bytes quality_ladder with
  | some out => out
  | none => encode 60

/-- `b'%PDF'` as byte values. -/
def pdfMagic : List ℕ := [37, 80, 68, 70]

/-- `ImagePreprocessor.process` (image_preprocessor.py lines 27-107),
modelled from the input checks to the final re-encoding: empty input, PDF
payloads, and inputs over 3.5MB (`len(image_bytes)/1024/1024 > 3.5`, i.e.
`len > 3670016`, exact for double-precision division by a power of two) are
returned unchanged; otherwise the processed image is re-encoded under the
4MB ceiling (`MAX_FILE_SIZE_MB = 4`, `max_size_bytes = 4194304`).  The
pipeline transforms (resize, contrast, sharpness, denoise, deskew) produce
the image whose encodings `encode` reports; an exception anywhere returns
the input unchanged and is not modelled as a separate path. -/
def preprocessor_process (input : List ℕ) (encode : ℕ → List ℕ) : List ℕ :=
  if input.isEmpty then input
  else if pdfMagic.isPrefixOf input then input
  else if 3670016 < input.length then input
  else image_to_bytes encode 4194304

/-! ## services/store_name_extractor.py : the fallback store-name extractor

`extract_from_full_image` (lines 33-73) runs pytesseract over the whole
image; the OCR text it produced is the model's input.  All ratio comparisons
are embedded cross-multiplied as explained above (each is guarded by a
positive denominator).  The two regular expressions of `_extract_by_pattern`
and the two of `_looks_like_address` are anchored or scanned patterns over
fixed character classes; each is embedded as the equivalent explicit
decomposition, spelled out at its definition. -/

/-- The apostrophe character (ASCII 39). -/
def apostrophe : Char := Char.ofNat 39

/-- `KNOWN_CHAINS` (store_name_extractor.py lines 20-27). -/
def known_chains : List PyStr :=
  (["walmart", "target", "costco", "safeway", "kroger", "whole foods",
    "trader joe", "aldi", "publix", "wegmans", "cvs", "walgreens",
    "rite aid", "shell", "chevron", "bp", "exxon", "mobil",
    "mcdonald", "burger king", "wendy", "subway", "starbucks",
    "dunkin", "chipotle", "taco bell", "kfc", "pizza hut",
    "home depot", "lowe", "best buy", "staples", "office depot"]).map String.toList

/-- Remove trailing whitespace only. -/
def dropTrailingWs (t : PyStr) : PyStr :=
  (t.reverse.dropWhile Char.isWhitespace).reverse

/-- Case-insensitive `endswith` over ASCII. -/
def endsWithCI (t w : PyStr) : Bool :=
  (w.map Char.toUpper).isSuffixOf (t.map Char.toUpper)

/-- The corporate suffixes of the cleaner's first regex. -/
def corp_suffixes : List PyStr := (["INC", "LLC", "CO", "CORP", "LTD"]).map String.toList

/-- Helper for the cleaner's suffix regex: if `body` ends with whitespace
followed by one of the suffix words (case-insensitive), the text with that
suffix and the whole preceding whitespace run removed. -/
def strip_corp_suffix_core (body : PyStr) : Option PyStr :=
  corp_suffixes.findSome? fun w =>
    if endsWithCI body w then
      let rest := body.take (body.length - w.length)
      match rest.getLast? with
      | some c => if c.isWhitespace then some (dropTrailingWs rest) else none
      | none => none
    else none

/-- `re.sub(r'\s+(INC|LLC|CO|CORP|LTD)\.?$', '', text, flags=IGNORECASE)`
(line 222).  The pattern is anchored at the end: it strips one optional
trailing dot, one suffix word, and the maximal whitespace run before it,
and otherwise leaves the text unchanged. -/
def strip_corp_suffix (t : PyStr) : PyStr :=
  let withDot : Option PyStr :=
    match t.getLast? with
    | some c => if c = '.' then strip_corp_suffix_core t.dropLast else none
    | none => none
  match withDot with
  | some r => r
  | none =>
    match strip_corp_suffix_core t with
    | some r => r
    | none => t

/-- The characters kept by `re.sub(r'[^\w\s&\'-]', '', text)` (line 225):
word characters (alphanumeric or underscore), whitespace, ampersand,
apostrophe, hyphen. -/
def store_name_keep_char (c : Char) : Bool :=
  c.isAlphanum || c == '_' || c.isWhitespace || c == '&' || c == apostrophe || c == '-'

/-- Helper for `py_title`: Python `str.title()` capitalises the first letter
of each maximal alphabetic run and lowercases the rest. -/
def pyTitleAux : List Char → Bool → List Char
  | [], _ => []
  | c :: rest, prevAlpha =>
    if c.isAlpha then
      (if prevAlpha then c.toLower else c.toUpper) :: pyTitleAux rest true
    else c :: pyTitleAux rest false

/-- Python `str.title()` (line 231). -/
def py_title (t : PyStr) : PyStr := pyTitleAux t false

/-- `_clean_store_name` (store_name_extractor.py lines 211-237): strip a
corporate suffix, drop disallowed characters, collapse whitespace
(`' '.join(text.split())`), title-case, truncate to 100 characters with a
strip, and strip. -/
def clean_store_name (text : PyStr) : PyStr :=
  let t1 := strip_corp_suffix text
  let t2 := t1.filter store_name_keep_char
  let t3 := List.intercalate [' '] (pySplit t2)
  let t4 := py_title t3
  let t5 := if 100 < t4.length then pyStrip (t4.take 100) else t4
  pyStrip t5

/-- `_is_valid_store_name` (store_name_extractor.py lines 239-267).
`letter_ratio < 0.3` is embedded as `10 * letters < 3 * len` (len ≥ 3 > 0 on
that path); `text.replace(' ', '').isdigit()` is false on the empty string. -/
def is_valid_store_name (text : PyStr) : Bool :=
  if text.isEmpty || text.length < 3 || 100 < text.length then false
  else if 10 * letterCount text < 3 * text.length then false
  else if ((pySplit text).filter (fun w => 2 ≤ letterCount w)).isEmpty then false
  else
    let no_spaces := text.filter (fun c => !(c == ' '))
    if !no_spaces.isEmpty && no_spaces.all Char.isDigit then false
    else true

/-- Case-insensitive `startswith` over ASCII. -/
def startsWithCI (t w : PyStr) : Bool :=
  (w.map Char.toUpper).isPrefixOf (t.map Char.toUpper)

/-- The street keywords of `_looks_like_address`'s first pattern. -/
def street_keywords : List PyStr :=
  (["Street", "St", "Avenue", "Ave", "Road", "Rd", "Boulevard", "Blvd",
    "Lane", "Ln", "Drive", "Dr"]).map String.toList

/-- Match of `\d+\s+[A-Za-z]+\s+(Street|St|...)` (IGNORECASE) starting at the
head of `t`: a nonempty digit run, a nonempty whitespace run, a nonempty
letter run, a nonempty whitespace run, then a street keyword as a prefix of
the remainder.  The greedy runs are maximal; backtracking cannot produce any
other decomposition because each run's class excludes the next run's class. -/
def addr_pattern_at (t : PyStr) : Bool :=
  let p1 := t.span Char.isDigit
  !p1.1.isEmpty &&
    (let p2 := p1.2.span Char.isWhitespace
     !p2.1.isEmpty &&
       (let p3 := p2.2.span Char.isAlpha
        !p3.1.isEmpty &&
          (let p4 := p3.2.span Char.isWhitespace
           !p4.1.isEmpty && street_keywords.any (fun k => startsWithCI p4.2 k))))

/-- `re.search`: try the anchored matcher at every suffix. -/
def search_anywhere (p : PyStr → Bool) : PyStr → Bool
  | [] => p []
  | c :: rest => p (c :: rest) || search_anywhere p rest

/-- Match of `^\d+\s+[A-Za-z\s]+,`: a nonempty digit run, then at least two
characters drawn from letters-or-whitespace beginning with whitespace (one
for `\s+`, at least one for `[A-Za-z\s]+`), then a comma. -/
def addr_comma_pattern (t : PyStr) : Bool :=
  let p1 := t.span Char.isDigit
  !p1.1.isEmpty &&
    (match p1.2 with
     | [] => false
     | c :: _ =>
       c.isWhitespace &&
         (let p2 := p1.2.span (fun c => c.isAlpha || c.isWhitespace)
          2 ≤ p2.1.length && p2.2.head? == some ','))

/-- `_looks_like_address` (store_name_extractor.py lines 269-281). -/
def looks_like_address (t : PyStr) : Bool :=
  search_anywhere addr_pattern_at t || addr_comma_pattern t

/-- `_looks_like_phone` (store_name_extractor.py lines 283-292):
`re.sub(r'[\s\-\(\)]', '', text)`, then at least 10 characters of which at
least 10 are digits. -/
def looks_like_phone (t : PyStr) : Bool :=
  let cleaned := t.filter (fun c => !(c.isWhitespace || c == '-' || c == '(' || c == ')'))
  10 ≤ cleaned.length && 10 ≤ (cleaned.filter Char.isDigit).length

/-- Characters of the class `[A-Za-z\s&'-]` of `_extract_by_pattern`'s first
regex. -/
def pattern_class_char (c : Char) : Bool :=
  c.isAlpha || c.isWhitespace || c == '&' || c == apostrophe || c == '-'

/-- Full match of `^[A-Z][A-Za-z\s&\'-]+(?:INC|LLC|CO|CORP)?\.?$`: an
uppercase letter, then a nonempty class body, optionally ending in a dot.
The optional corporate suffix needs no separate case: its characters all lie
in the class, so any body accepted with the suffix present is accepted with
the suffix folded into the class run. -/
def pattern1_match (t : PyStr) : Bool :=
  match t with
  | [] => false
  | c :: body =>
    (c.isUpper && c.isAlpha) &&
      ((!body.isEmpty && body.all pattern_class_char) ||
       (body.getLast? == some '.' && !body.dropLast.isEmpty
         && body.dropLast.all pattern_class_char))

/-- Full match of `^[A-Z\s&\'-]{3,}$`. -/
def pattern2_match (t : PyStr) : Bool :=
  3 ≤ t.length &&
    t.all (fun c => (c.isUpper && c.isAlpha) || c.isWhitespace || c == '&'
      || c == apostrophe || c == '-')

/-- `_extract_by_known_chain` (lines 75-103) over the first 10 lines.  Which
member of the `KNOWN_CHAINS` set matched does not affect the outcome (the
acceptance test depends only on the line), so the set iteration is modelled
as an existence test per line. -/
def extract_by_known_chain_aux : List PyStr → ℕ → Option FallbackResult
  | [], _ => none
  | line :: rest, i =>
    if known_chains.any (fun ch => containsSub ch (line.map Char.toLower)) then
      let cleaned := clean_store_name line
      if !cleaned.isEmpty && 3 ≤ cleaned.length then
        some ⟨cleaned, 8/10, "known_chain", i⟩
      else extract_by_known_chain_aux rest (i + 1)
    else extract_by_known_chain_aux rest (i + 1)

/-- `_extract_by_known_chain` entry point. -/
def extract_by_known_chain (lines : List PyStr) : Option FallbackResult :=
  extract_by_known_chain_aux (lines.take 10) 0

/-- `_extract_by_position` (lines 105-143) over the first 5 lines.
`digit_ratio > 0.5` is embedded as `len < 2 * digits` (len ≥ 3 > 0 here). -/
def extract_by_position_aux : List PyStr → ℕ → Option FallbackResult
  | [], _ => none
  | line :: rest, i =>
    if line.length < 3 then extract_by_position_aux rest (i + 1)
    else if looks_like_address line || looks_like_phone line then
      extract_by_position_aux rest (i + 1)
    else if line.length < 2 * (line.filter Char.isDigit).length then
      extract_by_position_aux rest (i + 1)
    else
      let cleaned := clean_store_name line
      if is_valid_store_name cleaned then some ⟨cleaned, 6/10, "position", i⟩
      else extract_by_position_aux rest (i + 1)

/-- `_extract_by_position` entry point. -/
def extract_by_position (lines : List PyStr) : Option FallbackResult :=
  extract_by_position_aux (lines.take 5) 0

/-- `_extract_by_capitalization` (lines 145-178) over the first 8 lines.
`uppercase_ratio > 0.7` is embedded as `7 * alpha < 10 * upper` (the alpha
count is positive on that path). -/
def extract_by_capitalization_aux : List PyStr → ℕ → Option FallbackResult
  | [], _ => none
  | line :: rest, i =>
    if line.length < 3 then extract_by_capitalization_aux rest (i + 1)
    else
      let alpha := line.filter Char.isAlpha
      if alpha.isEmpty then extract_by_capitalization_aux rest (i + 1)
      else if 7 * alpha.length < 10 * (alpha.filter Char.isUpper).length then
        let cleaned := clean_store_name line
        if is_valid_store_name cleaned then some ⟨cleaned, 5/10, "capitalization", i⟩
        else extract_by_capitalization_aux rest (i + 1)
      else extract_by_capitalization_aux rest (i + 1)

/-- `_extract_by_capitalization` entry point. -/
def extract_by_capitalization (lines : List PyStr) : Option FallbackResult :=
  extract_by_capitalization_aux (lines.take 8) 0

/-- `_extract_by_pattern` (lines 180-209) over the first 8 lines.  The two
patterns are tried in order; both failing validation leads to the same next
line, so a single combined pattern test is equivalent. -/
def extract_by_pattern_aux : List PyStr → ℕ → Option FallbackResult
  | [], _ => none
  | line :: rest, i =>
    if pattern1_match (pyStrip line) || pattern2_match (pyStrip line) then
      let cleaned := clean_store_name line
      if is_valid_store_name cleaned then some ⟨cleaned, 4/10, "pattern", i⟩
      else extract_by_pattern_aux rest (i + 1)
    else extract_by_pattern_aux rest (i + 1)

/-- `_extract_by_pattern` entry point. -/
def extract_by_pattern (lines : List PyStr) : Option FallbackResult :=
  extract_by_pattern_aux (lines.take 8) 0

/-- `extract_from_full_image` (store_name_extractor.py lines 33-73), modelled
from the pytesseract output (`ocr_text`) onward: reject empty or very short
text, build the stripped nonempty lines, and try the four tactics in order. -/
def extract_from_full_image (ocr_text : PyStr) : Option FallbackResult :=
  if ocr_text.isEmpty || (pyStrip ocr_text).length < 5 then none
  else
    let lines := ((splitOnNewline ocr_text).map pyStrip).filter (fun l => !l.isEmpty)
    if lines.isEmpty then none
    else
      match extract_by_known_chain lines with
      | some r => some r
      | none =>
        match extract_by_position lines with
        | some r => some r
        | none =>
          match extract_by_capitalization lines with
          | some r => some r
          | none => extract_by_pattern lines

/-- The validation predicate as the specification claim states it (claim C7):
area share at least 5% and at most 98% with a carve-out admitting shares of
95% or more, both sides at least 100 pixels, and aspect at most 15:1 — all
conjoined. -/
def spec_claimed_validation (area_share : ℚ) (width height : ℕ) : Prop :=
  1/20 ≤ area_share ∧ (area_share ≤ 49/50 ∨ 19/20 ≤ area_share) ∧
  100 ≤ width ∧ 100 ≤ height ∧
  ((max width height : ℕ) : ℚ) ≤ 15 * ((min width height : ℕ) : ℚ)

/-! ## Helper lemmas -/

theorem pyStrip_nil : pyStrip [] = [] := rfl

theorem length_dropWhile_le {α : Type} (p : α → Bool) :
    ∀ t : List α, (t.dropWhile p).length ≤ t.length := by
  intro t
  induction t with
  | nil => simp
  | cons c cs ih =>
    by_cases hp : p c = true
    · simp [List.dropWhile, hp]
      omega
    · simp [List.dropWhile, hp]

theorem pyStrip_length_le (t : PyStr) : (pyStrip t).length ≤ t.length := by
  unfold pyStrip
  calc ((t.dropWhile Char.isWhitespace).reverse.dropWhile Char.isWhitespace).reverse.length
      = ((t.dropWhile Char.isWhitespace).reverse.dropWhile Char.isWhitespace).length := by
        simp
    _ ≤ (t.dropWhile Char.isWhitespace).reverse.length := length_dropWhile_le _ _
    _ = (t.dropWhile Char.isWhitespace).length := by simp
    _ ≤ t.length := length_dropWhile_le _ _

theorem merchant_is_short_false_of_strip {f : Option MerchantField}
    (h : 2 ≤ (pyStrip (merchant_value f)).length) : merchant_is_short f = false := by
  unfold merchant_is_short
  have hne : (merchant_value f).isEmpty = false := by
    cases hv : merchant_value f with
    | nil => rw [hv] at h; simp [pyStrip] at h
    | cons c cs => simp
  simp [hne]
  omega

theorem apply_address_stage_merchantName (fs : AzureFields) (loc : Location) :
    (apply_address_stage fs loc).merchantName = fs.merchantName := by
  unfold apply_address_stage
  split <;> first | rfl | (split <;> rfl)

theorem apply_address_stage_merchantPhone (fs : AzureFields) (loc : Location) :
    (apply_address_stage fs loc).merchantPhone = fs.merchantPhone := by
  unfold apply_address_stage
  split <;> first | rfl | (split <;> rfl)

theorem apply_phone_stage_merchantName (fs : AzureFields) (loc : Location) :
    (apply_phone_stage fs loc).merchantName = fs.merchantName := by
  unfold apply_phone_stage
  split <;> first | rfl | (split <;> rfl)

theorem apply_phone_stage_merchantAddress (fs : AzureFields) (loc : Location) :
    (apply_phone_stage fs loc).merchantAddress = fs.merchantAddress := by
  unfold apply_phone_stage
  split <;> first | rfl | (split <;> rfl)

theorem apply_name_stage_merchantAddress (azure : AzureFields) (loc : Location)
    (hasImage : Bool) (fb : Option FallbackResult) :
    (apply_name_stage azure loc hasImage fb).merchantAddress = azure.merchantAddress := by
  unfold apply_name_stage
  dsimp only
  split <;> split <;> split <;> rfl

theorem apply_name_stage_merchantPhone (azure : AzureFields) (loc : Location)
    (hasImage : Bool) (fb : Option FallbackResult) :
    (apply_name_stage azure loc hasImage fb).merchantPhone = azure.merchantPhone := by
  unfold apply_name_stage
  dsimp only
  split <;> split <;> split <;> rfl

theorem override_merchantName_eq (azure : AzureFields) (loc : Location)
    (hasImage : Bool) (fb : Option FallbackResult) :
    (override_merchant_data_with_tesseract azure ⟨true, some loc⟩ hasImage fb).merchantName
      = (apply_name_stage azure loc hasImage fb).merchantName := by
  unfold override_merchant_data_with_tesseract
  rw [apply_phone_stage_merchantName, apply_address_stage_merchantName]

theorem override_merchantAddress_eq (azure : AzureFields) (loc : Location)
    (hasImage : Bool) (fb : Option FallbackResult) :
    (override_merchant_data_with_tesseract azure ⟨true, some loc⟩ hasImage fb).merchantAddress
      = (apply_address_stage (apply_name_stage azure loc hasImage fb) loc).merchantAddress := by
  unfold override_merchant_data_with_tesseract
  rw [apply_phone_stage_merchantAddress]

theorem name_stage_candidate_written (azure : AzureFields) (loc : Location)
    (hasImage : Bool) (fb : Option FallbackResult) (f : MerchantField)
    (h : name_candidate loc = some f) :
    apply_name_stage azure loc hasImage fb = { azure with merchantName := some f } := by
  unfold apply_name_stage
  rw [h]
  simp [fallback_candidate]

theorem name_stage_cloud_kept (azure : AzureFields) (loc : Location)
    (hasImage : Bool) (fb : Option FallbackResult)
    (h : name_candidate loc = none)
    (hshort : merchant_is_short azure.merchantName = false) :
    apply_name_stage azure loc hasImage fb = azure := by
  unfold apply_name_stage
  rw [h]
  simp [fallback_candidate, hshort]

theorem name_stage_fallback_written (azure : AzureFields) (loc : Location)
    (fb : Option FallbackResult) (fr : FallbackResult)
    (h : name_candidate loc = none)
    (hshort : merchant_is_short azure.merchantName = true)
    (hfb : fb = some fr) (hfr : fr.store_name ≠ []) :
    apply_name_stage azure loc true fb
      = { azure with merchantName := some (fallback_merchant_field fr) } := by
  unfold apply_name_stage
  rw [h]
  simp [fallback_candidate, hshort, hfb, hfr]

theorem name_stage_placeholder_written (azure : AzureFields) (loc : Location)
    (hasImage : Bool) (fb : Option FallbackResult)
    (h : name_candidate loc = none)
    (hshort : merchant_is_short azure.merchantName = true)
    (hnofb : hasImage = false ∨ fb = none ∨ ∃ fr, fb = some fr ∧ fr.store_name = []) :
    apply_name_stage azure loc hasImage fb
      = { azure with merchantName := some placeholder_field } := by
  unfold apply_name_stage
  rw [h]
  have hfc : fallback_candidate false hasImage azure fb = none := by
    rcases hnofb with h1 | h1 | ⟨fr, h1, h2⟩
    · simp [fallback_candidate, h1]
    · simp [fallback_candidate, h1]
    · simp [fallback_candidate, h1, h2]
  dsimp only [Option.isSome_none]
  rw [hfc]
  simp [hshort]

/-! ## Claim theorems -/

/-- Claim C1 (code-bug evidence).  The claim asserts that whenever the cloud
result has no usable merchant name, local OCR provides no valid store name,
and the fallback extractor finds nothing, the final MerchantName is the
"Unknown Store" placeholder.  The code violates this whenever the local-OCR
stage fails outright (`success: False`, as the router passes at line 175 when
extraction was disabled or raised): the guard at lines 284-285 returns the
Azure result unchanged before the fallback and placeholder blocks can run,
although the router's own comment at line 174 says the fallback should be
tried even then and the function docstring promises fallback when both
engines fail.  This theorem evaluates the embedded code on that path: no
placeholder is written, whatever the Azure fields contain. -/
theorem claim_C1_success_guard (azure : AzureFields) (hasImage : Bool)
    (fb : Option FallbackResult) :
    override_merchant_data_with_tesseract azure ⟨false, none⟩ hasImage fb = azure := rfl

/-- Claim C2: per-field precedence ladder of the reconciler.  The six
conjuncts are a complete case analysis of `override_merchant_data_with_tesseract`
(on a successful Tesseract result): (1) a valid local-OCR name candidate is
written with source `tesseract` (the code's name for the spec's `local_ocr`)
and is never replaced by the fallback or the placeholder; (2) with no valid
candidate, a cloud name of stripped length ≥ 2 is left untouched — the
fallback extractor and the placeholder are not applied; (3) the fallback
value is written only when the candidate failed and the cloud name is absent
or shorter than 2 characters; (4) the placeholder is written only when the
candidate failed, the cloud name is absent or short, and the fallback
produced nothing; (5)/(6) the address field is overwritten exactly when the
address candidate passes the validity gate, and kept otherwise; (7)/(8) the
phone field likewise (its gate: nonempty with at least 7 characters after
dropping `+`, `-` and spaces).  Together these say the per-field source
moves only forward along cloud → local_ocr → fallback_heuristic →
placeholder. -/
theorem claim_C2_precedence_ladder (azure : AzureFields) (loc : Location)
    (hasImage : Bool) (fb : Option FallbackResult) :
    let res := override_merchant_data_with_tesseract azure ⟨true, some loc⟩ hasImage fb
    (∀ f, name_candidate loc = some f → res.merchantName = some f) ∧
    (name_candidate loc = none → merchant_is_short azure.merchantName = false →
      res.merchantName = azure.merchantName) ∧
    (∀ fr, name_candidate loc = none → merchant_is_short azure.merchantName = true →
      hasImage = true → fb = some fr → fr.store_name ≠ [] →
      res.merchantName = some (fallback_merchant_field fr)) ∧
    (name_candidate loc = none → merchant_is_short azure.merchantName = true →
      (hasImage = false ∨ fb = none ∨ ∃ fr, fb = some fr ∧ fr.store_name = []) →
      res.merchantName = some placeholder_field) ∧
    (∀ ad, loc.address = some ad → ad ≠ [] → is_valid_text ad 300 = true →
      res.merchantAddress = some (tesseract_string_field ad loc.confidence)) ∧
    ((∀ ad, loc.address = some ad → ad = [] ∨ is_valid_text ad 300 = false) →
      res.merchantAddress = azure.merchantAddress) ∧
    (∀ ph, loc.phone = some ph → ph ≠ [] →
      7 ≤ (ph.filter (fun c => !(c == '+') && !(c == '-') && !(c == ' '))).length →
      res.merchantPhone = some (tesseract_phone_field ph loc.confidence)) ∧
    ((∀ ph, loc.phone = some ph → ph = [] ∨
        (ph.filter (fun c => !(c == '+') && !(c == '-') && !(c == ' '))).length < 7) →
      res.merchantPhone = azure.merchantPhone) := by
  intro res
  have hmn := override_merchantName_eq azure loc hasImage fb
  have hma := override_merchantAddress_eq azure loc hasImage fb
  have hmp : res.merchantPhone = (apply_phone_stage (apply_address_stage
      (apply_name_stage azure loc hasImage fb) loc) loc).merchantPhone := rfl
  have hinner : (apply_address_stage (apply_name_stage azure loc hasImage fb) loc).merchantPhone
      = azure.merchantPhone := by
    rw [apply_address_stage_merchantPhone]
    exact apply_name_stage_merchantPhone azure loc hasImage fb
  refine ⟨?_, ?_, ?_, ?_, ?_, ?_, ?_, ?_⟩
  · intro f h
    rw [show res.merchantName = _ from hmn, name_stage_candidate_written azure loc hasImage fb f h]
  · intro h hshort
    rw [show res.merchantName = _ from hmn, name_stage_cloud_kept azure loc hasImage fb h hshort]
  · intro fr h hshort hi hfb hne
    subst hi
    rw [show res.merchantName = _ from hmn,
      name_stage_fallback_written azure loc fb fr h hshort hfb hne]
  · intro h hshort hnofb
    rw [show res.merchantName = _ from hmn,
      name_stage_placeholder_written azure loc hasImage fb h hshort hnofb]
  · intro ad had hne hvalid
    rw [show res.merchantAddress = _ from hma]
    unfold apply_address_stage
    rw [had]
    simp [hne, hvalid]
  · intro h
    rw [show res.merchantAddress = _ from hma]
    cases had : loc.address with
    | none =>
      unfold apply_address_stage
      rw [had]
      exact apply_name_stage_merchantAddress azure loc hasImage fb
    | some ad =>
      unfold apply_address_stage
      rw [had]
      rcases h ad had with h1 | h1
      · subst h1
        simpa using apply_name_stage_merchantAddress azure loc hasImage fb
      · simp [h1]
        exact apply_name_stage_merchantAddress azure loc hasImage fb
  · intro ph hph hne hlen
    rw [hmp]
    unfold apply_phone_stage
    rw [hph]
    simp [hne, hlen]
  · intro h
    rw [hmp]
    cases hph : loc.phone with
    | none =>
      unfold apply_phone_stage
      rw [hph]
      exact hinner
    | some ph =>
      unfold apply_phone_stage
      rw [hph]
      dsimp only
      rcases h ph hph with h1 | h1
      · subst h1
        simpa using hinner
      · rw [if_neg]
        · exact hinner
        · simp only [Bool.and_eq_true, decide_eq_true_eq, not_and]
          intro _
          omega

/-- Witness for claim C2: with no cloud name, no usable candidate
(`store_name` absent), no image for the fallback, the placeholder is
written. -/
theorem claim_C2_witness :
    (override_merchant_data_with_tesseract ⟨none, none, none⟩
      ⟨true, some ⟨none, none, none, none, none, 0⟩⟩ false none).merchantName
      = some placeholder_field :=
  (claim_C2_precedence_ladder ⟨none, none, none⟩ ⟨none, none, none, none, none, 0⟩
    false none).2.2.2.1 rfl (by decide) (Or.inl rfl)

/-- Counterexample to claim C3 as stated.  Two concrete refutations.
First: the candidate "ab#c$" has a special-character share of exactly 0.4
(`10 * specialCount = 4 * length`), which the claim counts as failing the
gate ("special-character ratio of 0.4 or more"), yet the code's gate is
strict (`special_ratio > 0.4`), accepts it, and overwrites the cloud name
"Cloud Shop" with it.  Second: with a cloud name "A" (stripped length 1) and
a gate-failing candidate "@#$", the reconciler does not leave the cloud value
untouched — it writes the "Unknown Store" placeholder over it, so something
is written for the field even though the candidate was discarded. -/
theorem claim_C3_counterexample :
    (10 * specialCount "ab#c$".toList = 4 * ("ab#c$".toList).length ∧
      (override_merchant_data_with_tesseract
          ⟨some ⟨"string", "Cloud Shop".toList, "Cloud Shop".toList, 9/10, none, false⟩, none, none⟩
          ⟨true, some ⟨some "ab#c$".toList, none, none, none, none, 1/2⟩⟩ true none).merchantName
        = some (tesseract_string_field "ab#c$".toList (1/2)) ∧
      (override_merchant_data_with_tesseract
          ⟨some ⟨"string", "Cloud Shop".toList, "Cloud Shop".toList, 9/10, none, false⟩, none, none⟩
          ⟨true, some ⟨some "ab#c$".toList, none, none, none, none, 1/2⟩⟩ true none).merchantName
        ≠ some ⟨"string", "Cloud Shop".toList, "Cloud Shop".toList, 9/10, none, false⟩) ∧
    (override_merchant_data_with_tesseract
        ⟨some ⟨"string", "A".toList, "A".toList, 9/10, none, false⟩, none, none⟩
        ⟨true, some ⟨some "@#$".toList, none, none, none, none, 0⟩⟩ true none).merchantName
      = some placeholder_field := by
  refine ⟨⟨by decide, rfl, ?_⟩, rfl⟩
  rw [show (override_merchant_data_with_tesseract
      ⟨some ⟨"string", "Cloud Shop".toList, "Cloud Shop".toList, 9/10, none, false⟩, none, none⟩
      ⟨true, some ⟨some "ab#c$".toList, none, none, none, none, 1/2⟩⟩ true none).merchantName
    = some (tesseract_string_field "ab#c$".toList (1/2)) from rfl]
  simp [tesseract_string_field]

/-- Claim C3, amended: a candidate that fails the code's validity gate
(empty, longer than the per-field cap, letter share < 0.3,
special-character share strictly above 0.4, or no 3-character word with a
letter) is never itself written.  MerchantAddress then keeps the cloud value
unconditionally; MerchantName keeps the cloud value provided that value has
at least 2 characters after stripping — when the cloud name is absent or
shorter, the fallback extractor or the "Unknown Store" placeholder may still
write the field (that is what the counterexample's second part forces). -/
theorem claim_C3_amended (azure : AzureFields) (loc : Location)
    (hasImage : Bool) (fb : Option FallbackResult) :
    let res := override_merchant_data_with_tesseract azure ⟨true, some loc⟩ hasImage fb
    (name_candidate loc = none → 2 ≤ (pyStrip (merchant_value azure.merchantName)).length →
      res.merchantName = azure.merchantName) ∧
    ((∀ ad, loc.address = some ad → ad = [] ∨ is_valid_text ad 300 = false) →
      res.merchantAddress = azure.merchantAddress) := by
  intro res
  have hmn := override_merchantName_eq azure loc hasImage fb
  have hma := override_merchantAddress_eq azure loc hasImage fb
  constructor
  · intro h hlen
    rw [show res.merchantName = _ from hmn,
      name_stage_cloud_kept azure loc hasImage fb h (merchant_is_short_false_of_strip hlen)]
  · intro h
    rw [show res.merchantAddress = _ from hma]
    cases had : loc.address with
    | none =>
      unfold apply_address_stage
      rw [had]
      exact apply_name_stage_merchantAddress azure loc hasImage fb
    | some ad =>
      unfold apply_address_stage
      rw [had]
      rcases h ad had with h1 | h1
      · subst h1
        simpa using apply_name_stage_merchantAddress azure loc hasImage fb
      · simp [h1]
        exact apply_name_stage_merchantAddress azure loc hasImage fb

/-- Witness for the amended claim C3: cloud name "Cloud Shop" and a
gate-failing candidate "@#$" with gate-failing address "###" leave both
cloud fields exactly as they were. -/
theorem claim_C3_witness :
    (override_merchant_data_with_tesseract
        ⟨some ⟨"string", "Cloud Shop".toList, "Cloud Shop".toList, 9/10, none, false⟩, none, none⟩
        ⟨true, some ⟨some "@#$".toList, some "###".toList, none, none, none, 0⟩⟩
        true none).merchantName
      = some ⟨"string", "Cloud Shop".toList, "Cloud Shop".toList, 9/10, none, false⟩ ∧
    (override_merchant_data_with_tesseract
        ⟨some ⟨"string", "Cloud Shop".toList, "Cloud Shop".toList, 9/10, none, false⟩, none, none⟩
        ⟨true, some ⟨some "@#$".toList, some "###".toList, none, none, none, 0⟩⟩
        true none).merchantAddress = none := by
  have h := claim_C3_amended
    ⟨some ⟨"string", "Cloud Shop".toList, "Cloud Shop".toList, 9/10, none, false⟩, none, none⟩
    ⟨some "@#$".toList, some "###".toList, none, none, none, 0⟩ true none
  refine ⟨h.1 rfl (by decide), h.2 ?_⟩
  intro ad had
  rw [show (Location.mk (some "@#$".toList) (some "###".toList) none none none 0).address
      = some ("###".toList) from rfl] at had
  injection had with h1
  subst h1
  right
  decide

/-- Claim C6: whenever the local-OCR candidate store name is present and
passes the validity gate, the final MerchantName is the local-OCR value with
source `tesseract` (the code's name for the spec's `local_ocr`), regardless
of what the cloud field contains and regardless of the relative
confidences. -/
theorem claim_C6_local_overrides_cloud (azure : AzureFields) (loc : Location)
    (hasImage : Bool) (fb : Option FallbackResult) (sn : PyStr)
    (h1 : loc.store_name = some sn) (h2 : sn ≠ []) (h3 : is_valid_text sn 100 = true) :
    (override_merchant_data_with_tesseract azure ⟨true, some loc⟩ hasImage fb).merchantName
      = some (tesseract_string_field sn loc.confidence) := by
  have hc : name_candidate loc = some (tesseract_string_field sn loc.confidence) := by
    unfold name_candidate
    rw [h1]
    simp [h2, h3]
  rw [override_merchantName_eq, name_stage_candidate_written azure loc hasImage fb _ hc]

/-- Witness for claim C6: cloud "ACME MART" at confidence 0.9 versus valid
local candidate "Acme Mart" at 0.6 — the local value wins. -/
theorem claim_C6_witness :
    (override_merchant_data_with_tesseract
        ⟨some ⟨"string", "ACME MART".toList, "ACME MART".toList, 9/10, none, false⟩, none, none⟩
        ⟨true, some ⟨some "Acme Mart".toList, none, none, none, none, 6/10⟩⟩ true none).merchantName
      = some (tesseract_string_field "Acme Mart".toList (6/10)) :=
  claim_C6_local_overrides_cloud
    ⟨some ⟨"string", "ACME MART".toList, "ACME MART".toList, 9/10, none, false⟩, none, none⟩
    ⟨some "Acme Mart".toList, none, none, none, none, 6/10⟩ true none
    ("Acme Mart".toList) rfl (by decide) (by decide)

/-- Claim C4: the reported location confidence equals exactly the sum of the
fixed weights of the populated fields — 0.25 for store name, 0.30 for
address, 0.20 for phone, 0.15 for postal code, 0.10 for country — and in
particular store name and address alone give 0.55. -/
theorem claim_C4_confidence_weights :
    (∀ sn ad ph pc co : Option PyStr,
      calculate_location_confidence sn ad ph pc co =
        (if strTruthy sn then (25 : ℚ)/100 else 0) +
        (if strTruthy ad then (30 : ℚ)/100 else 0) +
        (if strTruthy ph then (20 : ℚ)/100 else 0) +
        (if strTruthy pc then (15 : ℚ)/100 else 0) +
        (if strTruthy co then (10 : ℚ)/100 else 0)) ∧
    calculate_location_confidence (some ['A']) (some ['B']) none none none = 55/100 := by
  constructor
  · intro sn ad ph pc co
    unfold calculate_location_confidence location_confidence_points
    cases strTruthy sn <;> cases strTruthy ad <;> cases strTruthy ph <;>
      cases strTruthy pc <;> cases strTruthy co <;> norm_num
  · unfold calculate_location_confidence location_confidence_points strTruthy
    norm_num

/-- Claim C5: the validator returns `is_valid_receipt = true` exactly when
the confidence is at least 0.7 and the lowercased document type contains
"receipt"; otherwise it is false with a message distinguishing the wrong
document type (which takes precedence) from low confidence. -/
theorem claim_C5_validator (confidence : ℚ) (doc_type : PyStr) :
    ((validate_receipt_confidence confidence doc_type).is_valid_receipt = true ↔
      (is_receipt_doc_type doc_type = true ∧ (7 : ℚ)/10 ≤ confidence)) ∧
    (is_receipt_doc_type doc_type = false →
      (validate_receipt_confidence confidence doc_type).message
        = ValidationMessage.notReceipt doc_type) ∧
    (is_receipt_doc_type doc_type = true → confidence < 7/10 →
      (validate_receipt_confidence confidence doc_type).message
        = ValidationMessage.lowConfidence confidence) ∧
    ((validate_receipt_confidence confidence doc_type).is_valid_receipt = true →
      (validate_receipt_confidence confidence doc_type).message
        = ValidationMessage.validReceipt confidence) := by
  unfold validate_receipt_confidence
  by_cases ht : is_receipt_doc_type doc_type = true
  · by_cases hc : (7 : ℚ)/10 ≤ confidence
    · refine ⟨?_, ?_, ?_, ?_⟩
      · simp [ht, hc]
      · intro h; rw [ht] at h; exact absurd h (by simp)
      · intro _ hlt; exact absurd hc (not_le.mpr hlt)
      · intro _; simp [ht, hc]
    · refine ⟨?_, ?_, ?_, ?_⟩
      · simp [ht, hc]
      · intro h; rw [ht] at h; exact absurd h (by simp)
      · intro _ _; simp [ht, hc]
      · intro h; simp [ht, hc] at h
  · have ht' : is_receipt_doc_type doc_type = false := by
      cases hv : is_receipt_doc_type doc_type
      · rfl
      · exact absurd hv ht
    refine ⟨?_, ?_, ?_, ?_⟩
    · simp [ht']
    · intro _; simp [ht']
    · intro h; exact absurd h ht
    · intro h; simp [ht'] at h

/-- Witness for claim C5: doc type "receipt" at confidence 0.82 is valid;
doc type "invoice" at confidence 0.9 is invalid with the wrong-type
message. -/
theorem claim_C5_witness :
    (validate_receipt_confidence (82/100) "receipt".toList).is_valid_receipt = true ∧
    (validate_receipt_confidence (9/10) "invoice".toList).is_valid_receipt = false ∧
    (validate_receipt_confidence (9/10) "invoice".toList).message
      = ValidationMessage.notReceipt "invoice".toList := by
  have h1 := claim_C5_validator (82/100) ("receipt".toList)
  have h2 := claim_C5_validator (9/10) ("invoice".toList)
  refine ⟨h1.1.mpr ⟨by decide, by norm_num⟩, ?_, h2.2.1 (by decide)⟩
  cases hv : (validate_receipt_confidence (9/10) "invoice".toList).is_valid_receipt
  · rfl
  · have := (h2.1.mp hv).1
    rw [show is_receipt_doc_type "invoice".toList = false from by decide] at this
    exact absurd this (by simp)

/-- Counterexample to claim C7 as stated.  The claim requires every accepted
detection to satisfy all of: area share in [5%, 98%] (carve-out admitting
≥ 95%), both sides at least 100 pixels, aspect at most 15:1.  The code's
`_validate_detection` accepts a 50×50 box filling 100% of a 50×50 image:
once the area share exceeds 98% the carve-out returns `True` immediately,
skipping the 100-pixel and aspect checks entirely. -/
theorem claim_C7_counterexample :
    validate_detection 1 50 50 = true ∧ ¬ spec_claimed_validation 1 50 50 := by
  constructor
  · unfold validate_detection
    norm_num
  · unfold spec_claimed_validation
    norm_num

/-- Claim C7, amended: the geometry strategy crops only when
`_validate_detection` accepts the box, returns the original bytes otherwise
(and when no contour was found), and acceptance is exactly: area share at
least 5%, and then either area share strictly above 98% (the carve-out,
which skips the dimension and aspect checks — that is what the
counterexample forces) or both sides at least 100 pixels with aspect at most
15:1. -/
theorem claim_C7_amended :
    (∀ imgW imgH, detect_and_crop imgW imgH none = CropOutcome.original) ∧
    (∀ imgW imgH r,
      validate_detection (((r.w * r.h : ℕ) : ℚ) / ((imgH * imgW : ℕ) : ℚ)) r.w r.h = false →
      detect_and_crop imgW imgH (some r) = CropOutcome.original) ∧
    (∀ s : ℚ, ∀ w h : ℕ,
      validate_detection s w h = true ↔
        (1/20 ≤ s ∧ (49/50 < s ∨ (100 ≤ w ∧ 100 ≤ h ∧ max w h ≤ 15 * min w h)))) := by
  refine ⟨fun _ _ => rfl, ?_, ?_⟩
  · intro imgW imgH r hval
    unfold detect_and_crop
    rw [show ((r.w * r.h : ℕ) : ℚ) = (r.w : ℚ) * (r.h : ℚ) from by push_cast; ring,
      show ((imgH * imgW : ℕ) : ℚ) = (imgH : ℚ) * (imgW : ℚ) from by push_cast; ring] at hval
    simp [hval]
  · intro s w h
    unfold validate_detection
    split_ifs with h1 h2 h3 h4 h5
    · simp only [false_iff]
      rintro ⟨hle, -⟩
      exact absurd hle (not_le.mpr h1)
    · simp only [true_iff]
      refine ⟨by linarith, Or.inl h2⟩
    · exact absurd (le_of_lt (lt_of_le_of_lt (by norm_num : (19 : ℚ)/20 ≤ 49/50) h2)) h3
    · simp only [false_iff]
      simp only [Bool.or_eq_true, decide_eq_true_eq] at h4
      rintro ⟨-, hgt | ⟨hw, hh, -⟩⟩
      · exact h2 hgt
      · rcases h4 with h4 | h4 <;> omega
    · simp only [false_iff]
      rintro ⟨-, hgt | ⟨-, -, hasp⟩⟩
      · exact h2 hgt
      · omega
    · simp only [true_iff]
      simp only [Bool.or_eq_true, decide_eq_true_eq, not_or] at h4
      exact ⟨not_lt.mp h1, Or.inr ⟨by omega, by omega, by omega⟩⟩

/-- Witness for the amended claim C7: a 10×10 box in a 100×100 image has
area share 1%, fails validation, and the original bytes are returned. -/
theorem claim_C7_witness :
    detect_and_crop 100 100 (some ⟨0, 0, 10, 10⟩) = CropOutcome.original := by
  apply claim_C7_amended.2.1
  have h : (((10 * 10 : ℕ) : ℚ) / ((100 * 100 : ℕ) : ℚ)) = 1/100 := by norm_num
  rw [show (CropRect.mk 0 0 10 10).w = 10 from rfl, show (CropRect.mk 0 0 10 10).h = 10 from rfl,
    h]
  have := claim_C7_amended.2.2 (1/100) 10 10
  rcases hv : validate_detection (1/100) 10 10
  · rfl
  · rw [hv] at this
    have hc := this.mp rfl
    norm_num at hc


theorem try_qualities_none (encode : ℕ → List ℕ) (maxb : ℕ)
    (h : ∀ q, ¬ ((encode q).length ≤ maxb)) :
    ∀ qs, try_qualities encode maxb qs = none := by
  intro qs
  induction qs with
  | nil => rfl
  | cons q rest ih =>
    unfold try_qualities
    rw [if_neg (h q)]
    exact ih

theorem try_qualities_some_le (encode : ℕ → List ℕ) (maxb : ℕ) :
    ∀ (qs out : List ℕ), try_qualities encode maxb qs = some out → out.length ≤ maxb := by
  intro qs
  induction qs with
  | nil => intro out h; exact absurd h (by simp [try_qualities])
  | cons q rest ih =>
    intro out h
    unfold try_qualities at h
    by_cases hle : (encode q).length ≤ maxb
    · rw [if_pos hle] at h
      rw [← Option.some.inj h]
      exact hle
    · rw [if_neg hle] at h
      exact ih out h

theorem image_to_bytes_floor (encode : ℕ → List ℕ) (maxb : ℕ)
    (h : try_qualities encode maxb quality_ladder = none) :
    image_to_bytes encode maxb = encode 60 := by
  unfold image_to_bytes
  rw [h]

theorem preprocessor_process_eq_encode (input : List ℕ) (encode : ℕ → List ℕ)
    (h1 : input.isEmpty = false) (h2 : pdfMagic.isPrefixOf input = false)
    (h3 : ¬ (3670016 < input.length)) :
    preprocessor_process input encode = image_to_bytes encode 4194304 := by
  unfold preprocessor_process
  rw [h1, h2]
  simp only [Bool.false_eq_true, if_false]
  rw [if_neg h3]

/-- Counterexample to claim C8 as stated.  When the ceiling cannot be met at
any quality from 95 down to 60, `_image_to_bytes` returns the bytes produced
at the quality floor of 60 — not the unmodified input.  Concretely: a 1-byte
input whose every re-encoding is 4194305 bytes (one over the 4MB ceiling)
makes `process` return those 4194305 bytes, which neither fit the ceiling
nor equal the input. -/
theorem claim_C8_counterexample :
    ¬ ((preprocessor_process [1] (fun _ => List.replicate 4194305 0)).length ≤ 4194304 ∨
       preprocessor_process [1] (fun _ => List.replicate 4194305 0) = [1]) := by
  have hall : ∀ q : ℕ, ¬ (((fun (_ : ℕ) => List.replicate 4194305 (0:ℕ)) q).length ≤ 4194304) := by
    intro q
    show ¬ ((List.replicate 4194305 (0:ℕ)).length ≤ 4194304)
    rw [List.length_replicate]
    omega
  have hp : preprocessor_process [1] (fun _ => List.replicate 4194305 0)
      = List.replicate 4194305 0 := by
    rw [preprocessor_process_eq_encode [1] _ (by decide) (by decide) (by decide),
      image_to_bytes_floor _ _ (try_qualities_none _ _ hall quality_ladder)]
  rw [hp]
  rintro (h | h)
  · rw [List.length_replicate] at h
    omega
  · have hlen := congrArg List.length h
    rw [List.length_replicate, show ([1] : List ℕ).length = 1 from rfl] at hlen
    omega

/-- Claim C8, amended: `process` either returns bytes within the 4MB
ceiling, or returns the input unchanged (empty input, PDF payload, or input
already above the 3.5MB skip threshold), or — when no quality from 95 down
to 60 meets the ceiling — returns the quality-60 encoding even though it
exceeds the ceiling (that is what the counterexample forces; the spec's own
§4.1 step 7 agrees: "if still over budget at the floor, return what was
produced anyway"). -/
theorem claim_C8_amended (input : List ℕ) (encode : ℕ → List ℕ) :
    (preprocessor_process input encode).length ≤ 4194304 ∨
    preprocessor_process input encode = input ∨
    preprocessor_process input encode = encode 60 := by
  unfold preprocessor_process
  split_ifs with h1 h2 h3
  · exact Or.inr (Or.inl rfl)
  · exact Or.inr (Or.inl rfl)
  · exact Or.inr (Or.inl rfl)
  · cases hres : try_qualities encode 4194304 quality_ladder with
    | some out =>
      refine Or.inl ?_
      have := try_qualities_some_le encode 4194304 quality_ladder out hres
      unfold image_to_bytes
      rw [hres]
      exact this
    | none => exact Or.inr (Or.inr (image_to_bytes_floor _ _ hres))

theorem strategy_score_points_pos_field (r : RawExtraction)
    (h : 0 < strategy_score_points r) :
    strTruthy r.store_name = true ∨ strTruthy r.address = true ∨
    strTruthy r.phone = true ∨ strTruthy r.postal_code = true ∨
    strTruthy r.country = true := by
  by_contra hc
  push_neg at hc
  obtain ⟨h1, h2, h3, h4, h5⟩ := hc
  rw [← Bool.eq_false_iff] at h1 h2 h3 h4 h5
  unfold strategy_score_points location_confidence_points at h
  rw [h1, h2, h3, h4, h5] at h
  simp at h

theorem foldl_best_strategy_pos (l : List (Option RawExtraction)) :
    ∀ acc : Option RawExtraction × ℕ,
      (∀ r, acc.1 = some r → 0 < strategy_score_points r) →
      ∀ r, (l.foldl best_strategy_step acc).1 = some r → 0 < strategy_score_points r := by
  induction l with
  | nil => intro acc hacc r h; exact hacc r h
  | cons e rest ih =>
    intro acc hacc r h
    rw [List.foldl_cons] at h
    refine ih (best_strategy_step acc e) ?_ r h
    intro r' h'
    cases e with
    | none => exact hacc r' h'
    | some x =>
      simp only [best_strategy_step] at h'
      by_cases hlt : acc.2 < strategy_score_points x
      · rw [if_pos hlt] at h'
        rw [← Option.some.inj h']
        exact lt_of_le_of_lt (Nat.zero_le _) hlt
      · rw [if_neg hlt] at h'
        exact hacc r' h'

theorem foldl_best_strategy_none (l : List (Option RawExtraction))
    (hall : ∀ e ∈ l, ∀ r, e = some r → strategy_score_points r = 0) :
    ∀ acc : Option RawExtraction × ℕ,
      (l.foldl best_strategy_step acc).1 = acc.1 ∧
      (l.foldl best_strategy_step acc).2 = acc.2 := by
  induction l with
  | nil => intro acc; exact ⟨rfl, rfl⟩
  | cons e rest ih =>
    intro acc
    rw [List.foldl_cons]
    have hstep : best_strategy_step acc e = acc := by
      cases e with
      | none => rfl
      | some x =>
        simp only [best_strategy_step]
        rw [hall (some x) (by simp) x rfl]
        rw [if_neg (Nat.not_lt_zero acc.2)]
    rw [hstep]
    exact ih (fun e' he' => hall e' (List.mem_cons_of_mem _ he')) acc

/-- Claim C9: a successful result of the location extraction engine always
carries a location with at least one populated field, because a strategy is
kept only when its score strictly exceeds the initial best score of 0; and
if every non-raising strategy parsed an empty candidate, the engine returns
a failure result instead. -/
theorem claim_C9_nonempty_success (strategies : List (Option RawExtraction)) :
    ((extract_location_from_bytes strategies).success = true →
      ∃ loc, (extract_location_from_bytes strategies).location = some loc ∧
        (strTruthy loc.store_name = true ∨ strTruthy loc.address = true ∨
         strTruthy loc.phone = true ∨ strTruthy loc.postal_code = true ∨
         strTruthy loc.country = true)) ∧
    ((∀ e ∈ strategies, ∀ r, e = some r →
        strTruthy r.store_name = false ∧ strTruthy r.address = false ∧
        strTruthy r.phone = false ∧ strTruthy r.postal_code = false ∧
        strTruthy r.country = false) →
      (extract_location_from_bytes strategies).success = false) := by
  constructor
  · intro hs
    unfold extract_location_from_bytes at hs ⊢
    cases hfold : (strategies.foldl best_strategy_step (none, 0)).1 with
    | none => rw [hfold] at hs; exact absurd hs (by simp)
    | some r =>
      refine ⟨location_info r, rfl, ?_⟩
      have hpos := foldl_best_strategy_pos strategies (none, 0) (by intro r' h'; simp at h')
        r hfold
      exact strategy_score_points_pos_field r hpos
  · intro hall
    unfold extract_location_from_bytes
    have hz : ∀ e ∈ strategies, ∀ r, e = some r → strategy_score_points r = 0 := by
      intro e he r hr
      obtain ⟨h1, h2, h3, h4, h5⟩ := hall e he r hr
      unfold strategy_score_points location_confidence_points
      rw [h1, h2, h3, h4, h5]
      simp
    rw [(foldl_best_strategy_none strategies hz (none, 0)).1]

/-- Witness for claim C9: one strategy parsing only a store name yields a
success whose location has a populated field. -/
theorem claim_C9_witness :
    ∃ loc, (extract_location_from_bytes
        [some ⟨some "Acme".toList, none, none, none, none⟩]).location = some loc ∧
      (strTruthy loc.store_name = true ∨ strTruthy loc.address = true ∨
       strTruthy loc.phone = true ∨ strTruthy loc.postal_code = true ∨
       strTruthy loc.country = true) :=
  (claim_C9_nonempty_success [some ⟨some "Acme".toList, none, none, none, none⟩]).1 rfl

theorem length_take_le_100 (t : PyStr) : (t.take 100).length ≤ 100 := by
  rw [List.length_take]
  omega

theorem clean_store_name_length_le (t : PyStr) : (clean_store_name t).length ≤ 100 := by
  unfold clean_store_name
  dsimp only
  split
  case isTrue h =>
    calc (pyStrip (pyStrip ((py_title (List.intercalate [' ']
            (pySplit ((strip_corp_suffix t).filter store_name_keep_char)))).take 100))).length
        ≤ (pyStrip ((py_title (List.intercalate [' ']
            (pySplit ((strip_corp_suffix t).filter store_name_keep_char)))).take 100)).length :=
          pyStrip_length_le _
      _ ≤ ((py_title (List.intercalate [' ']
            (pySplit ((strip_corp_suffix t).filter store_name_keep_char)))).take 100).length :=
          pyStrip_length_le _
      _ ≤ 100 := length_take_le_100 _
  case isFalse h =>
    exact le_trans (pyStrip_length_le _) (by omega)

theorem is_valid_store_name_bounds (t : PyStr) (h : is_valid_store_name t = true) :
    3 ≤ t.length ∧ t.length ≤ 100 := by
  unfold is_valid_store_name at h
  dsimp only at h
  split_ifs at h with h1 h2 h3 h4
  simp only [Bool.or_eq_true, decide_eq_true_eq, not_or] at h1
  exact ⟨by omega, by omega⟩

theorem extract_by_known_chain_aux_bounds :
    ∀ (lines : List PyStr) (i : ℕ) (r : FallbackResult),
      extract_by_known_chain_aux lines i = some r →
      3 ≤ r.store_name.length ∧ r.store_name.length ≤ 100 ∧ r.confidence = 8/10 := by
  intro lines
  induction lines with
  | nil => intro i r h; exact absurd h (by simp [extract_by_known_chain_aux])
  | cons line rest ih =>
    intro i r h
    unfold extract_by_known_chain_aux at h
    dsimp only at h
    split_ifs at h with hc hlen
    · injection h with h'
      subst h'
      simp only [Bool.and_eq_true, decide_eq_true_eq] at hlen
      exact ⟨hlen.2, clean_store_name_length_le line, rfl⟩
    · exact ih (i + 1) r h
    · exact ih (i + 1) r h

theorem extract_by_position_aux_bounds :
    ∀ (lines : List PyStr) (i : ℕ) (r : FallbackResult),
      extract_by_position_aux lines i = some r →
      3 ≤ r.store_name.length ∧ r.store_name.length ≤ 100 ∧ r.confidence = 6/10 := by
  intro lines
  induction lines with
  | nil => intro i r h; exact absurd h (by simp [extract_by_position_aux])
  | cons line rest ih =>
    intro i r h
    unfold extract_by_position_aux at h
    dsimp only at h
    split_ifs at h with g1 g2 g3 g4
    · exact ih (i + 1) r h
    · exact ih (i + 1) r h
    · exact ih (i + 1) r h
    · injection h with h'
      subst h'
      obtain ⟨hb1, hb2⟩ := is_valid_store_name_bounds _ g4
      exact ⟨hb1, hb2, rfl⟩
    · exact ih (i + 1) r h

theorem extract_by_capitalization_aux_bounds :
    ∀ (lines : List PyStr) (i : ℕ) (r : FallbackResult),
      extract_by_capitalization_aux lines i = some r →
      3 ≤ r.store_name.length ∧ r.store_name.length ≤ 100 ∧ r.confidence = 5/10 := by
  intro lines
  induction lines with
  | nil => intro i r h; exact absurd h (by simp [extract_by_capitalization_aux])
  | cons line rest ih =>
    intro i r h
    unfold extract_by_capitalization_aux at h
    dsimp only at h
    split_ifs at h with g1 g2 g3 g4
    · exact ih (i + 1) r h
    · exact ih (i + 1) r h
    · injection h with h'
      subst h'
      obtain ⟨hb1, hb2⟩ := is_valid_store_name_bounds _ g4
      exact ⟨hb1, hb2, rfl⟩
    · exact ih (i + 1) r h
    · exact ih (i + 1) r h

theorem extract_by_pattern_aux_bounds :
    ∀ (lines : List PyStr) (i : ℕ) (r : FallbackResult),
      extract_by_pattern_aux lines i = some r →
      3 ≤ r.store_name.length ∧ r.store_name.length ≤ 100 ∧ r.confidence = 4/10 := by
  intro lines
  induction lines with
  | nil => intro i r h; exact absurd h (by simp [extract_by_pattern_aux])
  | cons line rest ih =>
    intro i r h
    unfold extract_by_pattern_aux at h
    dsimp only at h
    split_ifs at h with g1 g2
    · injection h with h'
      subst h'
      obtain ⟨hb1, hb2⟩ := is_valid_store_name_bounds _ g2
      exact ⟨hb1, hb2, rfl⟩
    · exact ih (i + 1) r h
    · exact ih (i + 1) r h

/-- Claim C10: whenever the fallback store-name extractor returns a result,
the store name has length between 3 and 100 characters (the cleaner caps at
100, every acceptance path demands at least 3) and the confidence is one of
the four tactic constants 0.8, 0.6, 0.5, 0.4. -/
theorem claim_C10_fallback_bounds (ocr_text : PyStr) (r : FallbackResult)
    (h : extract_from_full_image ocr_text = some r) :
    3 ≤ r.store_name.length ∧ r.store_name.length ≤ 100 ∧
      (r.confidence = 8/10 ∨ r.confidence = 6/10 ∨
       r.confidence = 5/10 ∨ r.confidence = 4/10) := by
  unfold extract_from_full_image at h
  dsimp only at h
  split_ifs at h with h1 h2
  cases hk : extract_by_known_chain
        (((splitOnNewline ocr_text).map pyStrip).filter (fun l => !l.isEmpty)) with
    | some r0 =>
      rw [hk] at h
      injection h with h'
      subst h'
      obtain ⟨hb1, hb2, hb3⟩ := extract_by_known_chain_aux_bounds _ _ _ hk
      exact ⟨hb1, hb2, Or.inl hb3⟩
    | none =>
      rw [hk] at h
      cases hp : extract_by_position
          (((splitOnNewline ocr_text).map pyStrip).filter (fun l => !l.isEmpty)) with
      | some r0 =>
        rw [hp] at h
        injection h with h'
        subst h'
        obtain ⟨hb1, hb2, hb3⟩ := extract_by_position_aux_bounds _ _ _ hp
        exact ⟨hb1, hb2, Or.inr (Or.inl hb3)⟩
      | none =>
        rw [hp] at h
        cases hcap : extract_by_capitalization
            (((splitOnNewline ocr_text).map pyStrip).filter (fun l => !l.isEmpty)) with
        | some r0 =>
          rw [hcap] at h
          injection h with h'
          subst h'
          obtain ⟨hb1, hb2, hb3⟩ := extract_by_capitalization_aux_bounds _ _ _ hcap
          exact ⟨hb1, hb2, Or.inr (Or.inr (Or.inl hb3))⟩
        | none =>
          rw [hcap] at h
          obtain ⟨hb1, hb2, hb3⟩ := extract_by_pattern_aux_bounds _ _ _ h
          exact ⟨hb1, hb2, Or.inr (Or.inr (Or.inr hb3))⟩

/-- Witness for claim C10: the line "STARBUCKS" is matched by the
known-chain tactic, yielding "Starbucks" with confidence 0.8. -/
theorem claim_C10_witness :
    3 ≤ (FallbackResult.mk "Starbucks".toList (8/10) "known_chain" 0).store_name.length ∧
    (FallbackResult.mk "Starbucks".toList (8/10) "known_chain" 0).store_name.length ≤ 100 ∧
    ((FallbackResult.mk "Starbucks".toList (8/10) "known_chain" 0).confidence = 8/10 ∨
     (FallbackResult.mk "Starbucks".toList (8/10) "known_chain" 0).confidence = 6/10 ∨
     (FallbackResult.mk "Starbucks".toList (8/10) "known_chain" 0).confidence = 5/10 ∨
     (FallbackResult.mk "Starbucks".toList (8/10) "known_chain" 0).confidence = 4/10) :=
  claim_C10_fallback_bounds ("STARBUCKS\nABC".toList) _ rfl
